import Mathlib

/-!
Shallow embedding of the Insight Synthesis Engine of `src/services/ai.ts`
(class `AIService`): the Response Normalizer (`parseAIResponse`), the
Heuristic Analyzer (`createFallbackInsights` and its helpers) and the
Synthesis Orchestrator (`analyzeContent`), together with proofs about the
claims of the specification.

JavaScript strings are modelled as Lean `String` (the inputs of interest are
ASCII, so `toLowerCase` is ASCII lowercasing, `trim` strips ASCII whitespace,
and `length`/`substring` count characters).  The single outbound backend call
(`fetch` plus provider-envelope unwrapping) is modelled by an oracle
`String → Except String String` mapping the prompt to either the raw answer
text of the provider or a failure (`BackendError`); `JSON.parse` is modelled
by `jsonParse` below.
-/

/-! ## JavaScript string primitives -/

/-- ASCII model of `String.prototype.toLowerCase` (`Char.toLower` maps
`A`–`Z` to `a`–`z` and fixes everything else, as JS does on ASCII). -/
def lowerStr (s : String) : String :=
  String.mk (s.data.map Char.toLower)

/-- `listStarts needle hay`: `hay` begins with `needle`. -/
def listStarts : List Char → List Char → Bool
  | [], _ => true
  | _ :: _, [] => false
  | a :: as, b :: bs => a = b && listStarts as bs

/-- `listHasSub needle hay`: `needle` occurs as a contiguous substring. -/
def listHasSub (needle : List Char) : List Char → Bool
  | [] => needle.isEmpty
  | c :: t => listStarts needle (c :: t) || listHasSub needle t

/-- Model of JS `a.includes(b)`. -/
def strIncludes (s sub : String) : Bool :=
  listHasSub sub.data s.data

/-- Split `hay` at the first occurrence of `needle`, returning the part
before it and the part after it (`none` when `needle` does not occur). -/
def splitAtSub (needle : List Char) : List Char → Option (List Char × List Char)
  | [] => if needle.isEmpty then some ([], []) else none
  | c :: t =>
    if listStarts needle (c :: t) then some ([], (c :: t).drop needle.length)
    else
      match splitAtSub needle t with
      | some (p, q) => some (c :: p, q)
      | none => none

/-- ASCII portion of the JS `\s` class (space, tab, newline, carriage
return, vertical tab, form feed). -/
def jsWsChar (c : Char) : Bool :=
  c = ' ' || c = '\t' || c = '\n' || c = '\r' || c = '\x0b' || c = '\x0c'

/-- Model of `String.prototype.trim`. -/
def trimJS (s : String) : String :=
  String.mk (((s.data.dropWhile jsWsChar).reverse.dropWhile jsWsChar).reverse)

/-- Numeric value of a list of decimal digits (model of `parseInt` on a
string of digits). -/
def parseNatDigits (l : List Char) : Nat :=
  l.foldl (fun a c => a * 10 + (c.toNat - 48)) 0

/-! ## JSON values and `JSON.parse` -/

/-- JSON values.  Numbers keep their source lexeme: no claim compares
numeric values, only parse success and string/array fields matter. -/
inductive Json : Type where
  | null : Json
  | bool (b : Bool) : Json
  | num (lexeme : String) : Json
  | str (s : String) : Json
  | arr (elems : List Json) : Json
  | obj (fields : List (String × Json)) : Json

/-- JSON whitespace (space, tab, newline, carriage return). -/
def jsonWsChar (c : Char) : Bool :=
  c = ' ' || c = '\t' || c = '\n' || c = '\r'

/-- Value of a hexadecimal digit. -/
def hexVal (c : Char) : Option Nat :=
  if c.isDigit then some (c.toNat - 48)
  else if 'a' ≤ c && c ≤ 'f' then some (c.toNat - 87)
  else if 'A' ≤ c && c ≤ 'F' then some (c.toNat - 55)
  else none

/-- Decode a Unicode scalar value, mapping values Lean's `Char` cannot hold
(lone surrogates) to U+FFFD. -/
def charOfCode (n : Nat) : Char :=
  if n < 55296 then Char.ofNat n
  else if 57343 < n && n < 1114112 then Char.ofNat n
  else Char.ofNat 65533

/-- Decode the body of a JSON string literal (after the opening quote),
returning the decoded characters and the rest after the closing quote.
Escapes follow `JSON.parse`, including surrogate-pair combination. -/
def parseStringBody (fuel : Nat) (l : List Char) : Option (List Char × List Char) :=
  match fuel with
  | 0 => none
  | Nat.succ fuel =>
    match l with
    | [] => none
    | '"' :: r => some ([], r)
    | '\\' :: e :: r =>
      match e with
      | '"' => (parseStringBody fuel r).map (fun (cs, r') => ('"' :: cs, r'))
      | '\\' => (parseStringBody fuel r).map (fun (cs, r') => ('\\' :: cs, r'))
      | '/' => (parseStringBody fuel r).map (fun (cs, r') => ('/' :: cs, r'))
      | 'b' => (parseStringBody fuel r).map (fun (cs, r') => ('\x08' :: cs, r'))
      | 'f' => (parseStringBody fuel r).map (fun (cs, r') => ('\x0c' :: cs, r'))
      | 'n' => (parseStringBody fuel r).map (fun (cs, r') => ('\n' :: cs, r'))
      | 'r' => (parseStringBody fuel r).map (fun (cs, r') => ('\r' :: cs, r'))
      | 't' => (parseStringBody fuel r).map (fun (cs, r') => ('\t' :: cs, r'))
      | 'u' =>
        match r with
        | a :: b :: c :: d :: r2 =>
          match hexVal a, hexVal b, hexVal c, hexVal d with
          | some ha, some hb, some hc, some hd =>
            let n := ((ha * 16 + hb) * 16 + hc) * 16 + hd
            match r2 with
            | '\\' :: 'u' :: a2 :: b2 :: c2 :: d2 :: r3 =>
              match hexVal a2, hexVal b2, hexVal c2, hexVal d2 with
              | some ha2, some hb2, some hc2, some hd2 =>
                let m := ((ha2 * 16 + hb2) * 16 + hc2) * 16 + hd2
                if 55296 ≤ n && n ≤ 56319 && 56320 ≤ m && m ≤ 57343 then
                  (parseStringBody fuel r3).map
                    (fun (cs, r') =>
                      (charOfCode (65536 + (n - 55296) * 1024 + (m - 56320)) :: cs, r'))
                else
                  (parseStringBody fuel r2).map (fun (cs, r') => (charOfCode n :: cs, r'))
              | _, _, _, _ =>
                (parseStringBody fuel r2).map (fun (cs, r') => (charOfCode n :: cs, r'))
            | _ =>
              (parseStringBody fuel r2).map (fun (cs, r') => (charOfCode n :: cs, r'))
          | _, _, _, _ => none
        | _ => none
      | _ => none
    | c :: r =>
      if c.toNat < 32 then none
      else (parseStringBody fuel r).map (fun (cs, r') => (c :: cs, r'))

/-- Parse a JSON number, returning its lexeme and the rest. -/
def parseNumber (l : List Char) : Option (List Char × List Char) :=
  let (sign, l1) :=
    match l with
    | '-' :: t => (['-'], t)
    | _ => (([] : List Char), l)
  match l1 with
  | [] => none
  | c :: _ =>
    if !c.isDigit then none
    else
      let intPart := if c = '0' then ['0'] else l1.takeWhile Char.isDigit
      let l2 := l1.drop intPart.length
      let (fracPart, l3) :=
        match l2 with
        | '.' :: t =>
          let ds := t.takeWhile Char.isDigit
          if ds.isEmpty then (([] : List Char), l2) else ('.' :: ds, t.drop ds.length)
        | _ => (([] : List Char), l2)
      if l2 ≠ [] && l2.headD ' ' = '.' && fracPart = [] then none
      else
        let (expPart, l4) :=
          match l3 with
          | e :: t =>
            if e = 'e' || e = 'E' then
              let (es, t1) :=
                match t with
                | s :: t' => if s = '+' || s = '-' then ([s], t') else (([] : List Char), t)
                | [] => (([] : List Char), t)
              let ds := t1.takeWhile Char.isDigit
              if ds.isEmpty then (([] : List Char), l3) else (e :: es ++ ds, t1.drop ds.length)
            else (([] : List Char), l3)
          | [] => (([] : List Char), l3)
        some (sign ++ intPart ++ fracPart ++ expPart, l4)

mutual

/-- Parse one JSON value (fuel-indexed recursive descent). -/
def parseValue : Nat → List Char → Option (Json × List Char)
  | 0, _ => none
  | Nat.succ fuel, l =>
    match l.dropWhile jsonWsChar with
    | 'n' :: 'u' :: 'l' :: 'l' :: r => some (.null, r)
    | 't' :: 'r' :: 'u' :: 'e' :: r => some (.bool true, r)
    | 'f' :: 'a' :: 'l' :: 's' :: 'e' :: r => some (.bool false, r)
    | '"' :: r =>
      match parseStringBody (Nat.succ fuel) r with
      | some (cs, r') => some (.str (String.mk cs), r')
      | none => none
    | '[' :: r => parseArrayRest fuel r
    | '\x7b' :: r => parseObjRest fuel r
    | r =>
      match parseNumber r with
      | some (lex, r') => some (.num (String.mk lex), r')
      | none => none

/-- Parse the rest of an array after `[`. -/
def parseArrayRest : Nat → List Char → Option (Json × List Char)
  | 0, _ => none
  | Nat.succ fuel, l =>
    match l.dropWhile jsonWsChar with
    | ']' :: r => some (.arr [], r)
    | _ => (parseElems fuel l).map (fun (es, r) => (.arr es, r))

/-- Parse one or more comma-separated array elements, then `]`. -/
def parseElems : Nat → List Char → Option (List Json × List Char)
  | 0, _ => none
  | Nat.succ fuel, l =>
    match parseValue fuel l with
    | none => none
    | some (j, r) =>
      match r.dropWhile jsonWsChar with
      | ',' :: r2 => (parseElems fuel r2).map (fun (es, r') => (j :: es, r'))
      | ']' :: r2 => some ([j], r2)
      | _ => none

/-- Parse the rest of an object after the opening brace. -/
def parseObjRest : Nat → List Char → Option (Json × List Char)
  | 0, _ => none
  | Nat.succ fuel, l =>
    match l.dropWhile jsonWsChar with
    | '\x7d' :: r => some (.obj [], r)
    | _ => (parseFields fuel l).map (fun (fs, r) => (.obj fs, r))

/-- Parse one or more comma-separated `"key": value` pairs, then the
closing brace. -/
def parseFields : Nat → List Char → Option (List (String × Json) × List Char)
  | 0, _ => none
  | Nat.succ fuel, l =>
    match l.dropWhile jsonWsChar with
    | '"' :: r =>
      match parseStringBody (Nat.succ fuel) r with
      | none => none
      | some (k, r1) =>
        match r1.dropWhile jsonWsChar with
        | ':' :: r2 =>
          match parseValue fuel r2 with
          | none => none
          | some (v, r3) =>
            match r3.dropWhile jsonWsChar with
            | ',' :: r4 =>
              (parseFields fuel r4).map (fun (fs, r') => ((String.mk k, v) :: fs, r'))
            | '\x7d' :: r4 => some ([(String.mk k, v)], r4)
            | _ => none
        | _ => none
    | _ => none

end

/-- Model of `JSON.parse`: whole-string parse, failing on any trailing
non-whitespace (as the JS builtin does). -/
def jsonParse (s : String) : Option Json :=
  match parseValue (4 * s.length + 16) s.data with
  | some (j, r) => if (r.dropWhile jsonWsChar).isEmpty then some j else none
  | none => none

/-! ## Response Normalizer (`parseAIResponse`, ai.ts lines 264–298) -/

/-- Model of the regex `\{[\s\S]*\}` (no global flag): the greedy substring
from the first opening brace to the last closing brace, when both exist in
that order. -/
def extractBrace (s : String) : Option String :=
  let l := s.data.dropWhile (fun c => !(c = '\x7b'))
  match l with
  | [] => none
  | _ :: _ =>
    let r := l.reverse.dropWhile (fun c => !(c = '\x7d'))
    match r with
    | [] => none
    | _ :: _ => some (String.mk r.reverse)

/-- Model of the regex match for a fenced block: text between the first
three-backtick-json fence and the next closing fence, with surrounding
whitespace stripped exactly as the lazy capture does. -/
def extractCodeBlock (s : String) : Option String :=
  match splitAtSub "```json".data s.data with
  | none => none
  | some (_, rest) =>
    let rest2 := rest.dropWhile jsWsChar
    match splitAtSub "```".data rest2 with
    | none => none
    | some (inner, _) => some (String.mk ((inner.reverse.dropWhile jsWsChar).reverse))

/-- Third strategy of `parseAIResponse`: parse a fenced code block. -/
def codeBlockParse (s : String) : Option Json :=
  (extractCodeBlock s).bind jsonParse

/-- `AIService.parseAIResponse`: whole-string `JSON.parse`, then the greedy
first-brace-to-last-brace substring, then the fenced code block; `none`
models the final `throw`. -/
def parseAIResponse (s : String) : Option Json :=
  match jsonParse s with
  | some j => some j
  | none =>
    match extractBrace s with
    | some sub =>
      match jsonParse sub with
      | some j => some j
      | none => codeBlockParse s
    | none => codeBlockParse s

/-! ## Data model (`types/index.ts`, `ai.ts` header) -/

/-- The `AIProvider` union type. -/
inductive AIProvider : Type where
  | openai | anthropic | gemini | groq | huggingface
deriving DecidableEq

/-- The `AIConfig` interface (the `model` default is applied by the
constructor, so the field is always populated here). -/
structure AIConfig where
  provider : AIProvider
  apiKey : String
  model : String
deriving DecidableEq

/-- `AIService.getDefaultModel`. -/
def getDefaultModel (provider : AIProvider) : String :=
  match provider with
  | .openai => "gpt-4o-mini"
  | .anthropic => "claude-3-haiku-20240307"
  | .gemini => "gemini-1.5-flash"
  | .groq => "llama-3.1-8b-instant"
  | .huggingface => "microsoft/DialoGPT-medium"

/-- The content classification: `'github' | 'document'`. -/
inductive CType : Type where
  | github | document
deriving DecidableEq

/-- Repository metadata as used by the engine (`GitHubRepo` fields read by
`ai.ts`).  `language = ""` and `description = ""` model JS-falsy absence;
`none` on the numeric fields models `undefined` (any comparison with
`undefined` is false in JS). -/
structure RepoData where
  name : String
  language : String
  stargazers_count : Option Nat
  size : Option Nat
  description : String
deriving DecidableEq

/-- `o > n` under JS semantics where `o` may be `undefined`. -/
def optGt (o : Option Nat) (n : Nat) : Bool :=
  match o with
  | none => false
  | some v => decide (v > n)

/-- The `AIInsights` interface.  `complexity` is kept as a `String`, as in
the source, so that membership in `Low`/`Medium`/`High` is a real check. -/
structure AIInsights where
  summary : String
  keyFeatures : List String
  technologies : List String
  useCases : List String
  mainSections : List String
  complexity : String
  recommendation : String
deriving DecidableEq

/-! ## Keyword scanning (model of the `\b(...|...)\b` global regex scans) -/

/-- JS `\w` class. -/
def isWordChar (c : Char) : Bool :=
  c.isAlphanum || c = '_'

/-- Word-character test with the string edge counting as non-word. -/
def isWordOpt : Option Char → Bool
  | none => false
  | some c => isWordChar c

/-- A `\b` boundary holds between two (possibly absent) characters iff
exactly one side is a word character. -/
def boundaryOk (a b : Option Char) : Bool :=
  isWordOpt a != isWordOpt b

/-- Case-insensitive literal match of `pat` at the head of `l`, returning
the matched original-case characters and the rest. -/
def ciTakeMatch : List Char → List Char → Option (List Char × List Char)
  | [], l => some ([], l)
  | _ :: _, [] => none
  | a :: as, c :: cs =>
    if a.toLower = c.toLower then (ciTakeMatch as cs).map (fun (m, r) => (c :: m, r))
    else none

/-- Case-sensitive literal match returning the rest. -/
def matchLit (needle hay : List Char) : Option (List Char) :=
  if listStarts needle hay then some (hay.drop needle.length) else none

/-- Try the alternatives of one `\b(a1|a2|…)\b` pattern, in order, at the
current position (`prev` is the character before the position). -/
def tryAlts (alts : List (List Char)) (prev : Option Char) (l : List Char) :
    Option (List Char × List Char) :=
  alts.findSome? (fun a =>
    match ciTakeMatch a l with
    | none => none
    | some (m, r) =>
      if boundaryOk prev m.head? && boundaryOk m.getLast? r.head? then some (m, r)
      else none)

/-- Global scan: collect the non-overlapping matches of a position matcher
left to right, advancing one character on failure (regex `lastIndex`
semantics). -/
def scanWith (f : Option Char → List Char → Option (List Char × List Char)) :
    Option Char → List Char → Nat → List (List Char)
  | _, _, 0 => []
  | _, [], _ => []
  | prev, c :: cs, Nat.succ fuel =>
    match f prev (c :: cs) with
    | some (m, r) => m :: scanWith f m.getLast? r fuel
    | none => scanWith f (some c) cs fuel

/-- All matches (original case, in order) of a case-insensitive
word-bounded keyword alternation over `content`. -/
def scanKeywords (alts : List String) (content : String) : List String :=
  (scanWith (tryAlts (alts.map String.data)) none content.data (content.length + 1)).map
    String.mk

/-- `Set.add` on a JS `Set` kept as an insertion-ordered list. -/
def insertUnique (l : List String) (x : String) : List String :=
  if x ∈ l then l else l ++ [x]

/-! ## Technology extraction (ai.ts lines 570–606 and 813–859) -/

/-- The six `techPatterns` of `extractTechnologies`, each as its ordered
alternative list (`node\.?js` expands greedily to `node.js` then
`nodejs`). -/
def docTechAlts : List (List String) :=
  [["javascript", "python", "java", "c++", "c#", "php", "ruby", "go", "rust", "swift",
    "kotlin", "typescript"],
   ["react", "angular", "vue", "node.js", "nodejs", "express", "django", "flask", "spring",
    "laravel"],
   ["mysql", "postgresql", "mongodb", "redis", "elasticsearch", "sqlite"],
   ["aws", "azure", "gcp", "docker", "kubernetes", "jenkins", "git", "github", "gitlab"],
   ["html", "css", "sass", "less", "bootstrap", "tailwind"],
   ["api", "rest", "graphql", "json", "xml", "yaml"]]

/-- `AIService.extractTechnologies` (document path): matches are lowercased
before insertion into the `Set`, generic labels substitute when nothing
matched, and the result is capped at 6. -/
def extractTechnologies (content : String) : List String :=
  let contentLower := lowerStr content
  let ms := (docTechAlts.map (fun p => scanKeywords p content)).flatten
  let base := ms.foldl (fun acc m => insertUnique acc (lowerStr m)) []
  let techs :=
    if base = [] then
      if strIncludes contentLower "resume" || strIncludes contentLower "cv" then
        ["Professional documentation", "Career development"]
      else if strIncludes contentLower "report" || strIncludes contentLower "analysis" then
        ["Data analysis", "Research methodology"]
      else ["Document processing", "Content management"]
    else base
  techs.take 6

/-- The seven `techPatterns` of `extractGitHubTechnologies`. -/
def ghTechAlts : List (List String) :=
  [["javascript", "typescript", "python", "java", "c++", "c#", "php", "ruby", "go", "rust",
    "swift", "kotlin", "scala", "dart", "r", "matlab"],
   ["react", "angular", "vue", "svelte", "next.js", "nextjs", "nuxt", "gatsby", "ember"],
   ["node.js", "nodejs", "express", "django", "flask", "spring", "laravel", "rails",
    "fastapi", "gin", "fiber"],
   ["mysql", "postgresql", "mongodb", "redis", "elasticsearch", "sqlite", "cassandra",
    "dynamodb"],
   ["aws", "azure", "gcp", "docker", "kubernetes", "jenkins", "terraform", "ansible"],
   ["webpack", "vite", "babel", "eslint", "prettier", "jest", "cypress", "playwright"],
   ["react native", "flutter", "ionic", "xamarin", "cordova"]]

/-- `AIService.extractGitHubTechnologies`: the declared primary language is
added first when present; matches keep their original case; package-manager
mentions are appended; capped at 8. -/
def extractGitHubTechnologies (content : String) (repoData : RepoData) : List String :=
  let contentLower := lowerStr content
  let init := if repoData.language ≠ "" then [repoData.language] else []
  let ms := (ghTechAlts.map (fun p => scanKeywords p content)).flatten
  let s1 := ms.foldl insertUnique init
  let s2 :=
    if strIncludes contentLower "package.json" || strIncludes contentLower "npm install" then
      insertUnique s1 "npm"
    else s1
  let s3 := if strIncludes contentLower "yarn" then insertUnique s2 "Yarn" else s2
  let s4 :=
    if strIncludes contentLower "requirements.txt" || strIncludes contentLower "pip install" then
      insertUnique s3 "pip"
    else s3
  s4.take 8

/-! ## Complexity scoring (ai.ts lines 728–751 and 982–1005) -/

/-- The shared score-to-bucket mapping (`>= 5` High, `>= 3` Medium). -/
def scoreBucket (score : Nat) : String :=
  if score ≥ 5 then "High" else if score ≥ 3 then "Medium" else "Low"

/-- The technical-vocabulary alternation of `assessComplexity`. -/
def technicalTermAlts : List String :=
  ["algorithm", "methodology", "framework", "architecture", "implementation", "analysis",
   "optimization", "integration"]

/-- `AIService.assessComplexity` (document path). -/
def assessComplexity (content : String) (fileSize pageCount wordCount : Nat) : String :=
  let s1 := if fileSize > 500 then 2 else if fileSize > 200 then 1 else 0
  let s2 := if pageCount > 10 then 2 else if pageCount > 5 then 1 else 0
  let s3 := if wordCount > 2000 then 2 else if wordCount > 1000 then 1 else 0
  let technicalTerms := (scanKeywords technicalTermAlts content).length
  let s4 := if technicalTerms > 10 then 2 else if technicalTerms > 5 then 1 else 0
  scoreBucket (s1 + s2 + s3 + s4)

/-- The complexity-vocabulary alternation of `assessGitHubComplexity`
(`microservices?` expands greedily). -/
def complexTermAlts : List String :=
  ["architecture", "framework", "microservices", "microservice", "distributed", "scalable",
   "enterprise", "production", "deployment", "ci/cd", "testing", "docker", "kubernetes"]

/-- `AIService.assessGitHubComplexity` (repository path). -/
def assessGitHubComplexity (content : String) (repoData : RepoData) : String :=
  let s1 :=
    if optGt repoData.stargazers_count 1000 then 2
    else if optGt repoData.stargazers_count 100 then 1
    else 0
  let s2 := if optGt repoData.size 10000 then 2 else if optGt repoData.size 1000 then 1 else 0
  let complexTerms := (scanKeywords complexTermAlts content).length
  let s3 := if complexTerms > 10 then 2 else if complexTerms > 5 then 1 else 0
  let s4 := (if content.length > 5000 then 1 else 0) + (if content.length > 10000 then 1 else 0)
  scoreBucket (s1 + s2 + s3 + s4)

/-! ## Document-content extraction helpers (ai.ts lines 525–771) -/

/-- Model of the regexes `/(\d+)kb/`, `/File Size: (\d+)KB/`,
`/Pages: (\d+)/`, `/Word Count: ~(\d+)/`: first position where the literal
prelude matches, followed by a maximal non-empty digit run, followed by the
literal tail; the captured digit run is returned verbatim. -/
def findDigitsAux (pre post : List Char) : List Char → Nat → Option (List Char)
  | _, 0 => none
  | [], _ => none
  | c :: cs, Nat.succ fuel =>
    match matchLit pre (c :: cs) with
    | some r1 =>
      let ds := r1.takeWhile Char.isDigit
      if ds ≠ [] && (matchLit post (r1.drop ds.length)).isSome then some ds
      else findDigitsAux pre post cs fuel
    | none => findDigitsAux pre post cs fuel

/-- String-level wrapper for `findDigitsAux`. -/
def findDigits (pre post s : String) : Option String :=
  (findDigitsAux pre.data post.data s.data (s.length + 1)).map String.mk

/-- `AIService.determineDocumentType`. -/
def determineDocumentType (contentLower : String) : String :=
  if strIncludes contentLower "resume" || strIncludes contentLower "cv" then "Resume/CV"
  else if strIncludes contentLower "report" || strIncludes contentLower "analysis" then
    "Research Report"
  else if strIncludes contentLower "proposal" || strIncludes contentLower "plan" then
    "Project Proposal"
  else if strIncludes contentLower "manual" || strIncludes contentLower "guide" then
    "Technical Manual"
  else "Professional Document"

/-- Company suffixes of the pattern
`\b[A-Z][a-z]+ (?:Inc|LLC|…)\b` in `extractSpecificElements`. -/
def companySuffixes : List String :=
  ["Inc", "LLC", "Corp", "Corporation", "Company", "Ltd", "Limited", "Technologies",
   "Systems", "Solutions"]

/-- One-position matcher for the company-name pattern (case-sensitive). -/
def companyMatchAt (prev : Option Char) (l : List Char) : Option (List Char × List Char) :=
  match l with
  | [] => none
  | c :: cs =>
    if isWordOpt prev then none
    else if c.isUpper then
      let low := cs.takeWhile Char.isLower
      if low = [] then none
      else
        match cs.drop low.length with
        | ' ' :: r2 =>
          (companySuffixes.map String.data).findSome? (fun suf =>
            match matchLit suf r2 with
            | some r3 =>
              if boundaryOk suf.getLast? r3.head? then some (c :: low ++ ' ' :: suf, r3)
              else none
            | none => none)
        | _ => none
    else none

/-- One-position matcher for `\b(19|20)\d{2}\b`. -/
def yearMatchAt (prev : Option Char) (l : List Char) : Option (List Char × List Char) :=
  if isWordOpt prev then none
  else
    match l with
    | a :: b :: c :: d :: r =>
      if ((a = '1' && b = '9') || (a = '2' && b = '0')) && c.isDigit && d.isDigit
          && !isWordOpt r.head? then
        some ([a, b, c, d], r)
      else none
    | _ => none

/-- Suffix alternatives of the metric pattern
`\b\d+(?:\.\d+)?(?:%|percent|years?|…)\b` (greedy optionals expanded in
order). -/
def metricSuffixes : List String :=
  ["%", "percent", "years", "year", "months", "month", "projects", "project", "clients",
   "client", "users", "user", "million", "thousand", "k"]

/-- Try the metric suffixes (case-insensitively) at the head of `r`. -/
def metricSuffixAt (numPart r : List Char) : Option (List Char × List Char) :=
  (metricSuffixes.map String.data).findSome? (fun suf =>
    match ciTakeMatch suf r with
    | some (m, r') =>
      if boundaryOk m.getLast? r'.head? then some (numPart ++ m, r') else none
    | none => none)

/-- One-position matcher for the metric pattern. -/
def metricMatchAt (prev : Option Char) (l : List Char) : Option (List Char × List Char) :=
  if isWordOpt prev then none
  else
    match l with
    | [] => none
    | c :: _ =>
      if !c.isDigit then none
      else
        let ds := l.takeWhile Char.isDigit
        let r1 := l.drop ds.length
        let withFrac :=
          match r1 with
          | '.' :: t =>
            let fs := t.takeWhile Char.isDigit
            if fs = [] then none else some (ds ++ '.' :: fs, t.drop fs.length)
          | _ => none
        match withFrac with
        | some (numPart, r) =>
          match metricSuffixAt numPart r with
          | some res => some res
          | none => metricSuffixAt ds r1
        | none => metricSuffixAt ds r1

/-- Least element of a list of naturals (`Math.min(...)`; callers ensure
non-emptiness). -/
def listMin : List Nat → Nat
  | [] => 0
  | y :: t => t.foldl Nat.min y

/-- Greatest element of a list of naturals (`Math.max(...)`). -/
def listMax : List Nat → Nat
  | [] => 0
  | y :: t => t.foldl Nat.max y

/-- `AIService.extractSpecificElements`. -/
def extractSpecificElements (content : String) : List String :=
  let companies := (scanWith companyMatchAt none content.data (content.length + 1)).map
    String.mk
  let e1 :=
    if companies.length > 0 then
      ["Experience with " ++ companies.headD "" ++ " and similar organizations"]
    else []
  let years := (scanWith yearMatchAt none content.data (content.length + 1)).map
    parseNatDigits
  let e2 :=
    if years.length > 1 then
      ["Career span from " ++ toString (listMin years) ++ " to " ++ toString (listMax years)]
    else []
  let metrics := (scanWith metricMatchAt none content.data (content.length + 1)).map
    String.mk
  let e3 := if metrics.length > 0 then ["Quantified achievements and metrics"] else []
  e1 ++ e2 ++ e3

/-- `AIService.extractKeyFeatures`. -/
def extractKeyFeatures (content : String) (contentLower : String) : List String :=
  let features :=
    (if strIncludes contentLower "experience" || strIncludes contentLower "work" then
      ["Professional experience documentation"] else []) ++
    (if strIncludes contentLower "education" || strIncludes contentLower "degree" then
      ["Educational background details"] else []) ++
    (if strIncludes contentLower "skill" || strIncludes contentLower "technical" then
      ["Technical skills and competencies"] else []) ++
    (if strIncludes contentLower "project" || strIncludes contentLower "portfolio" then
      ["Project portfolio and achievements"] else []) ++
    (if strIncludes contentLower "contact" || strIncludes contentLower "email"
        || strIncludes contentLower "phone" then
      ["Contact information and networking details"] else []) ++
    (if strIncludes contentLower "summary" || strIncludes contentLower "objective" then
      ["Professional summary and career objectives"] else [])
  (features ++ extractSpecificElements content).take 6

/-- Matches `/^[A-Z][A-Z\s]+$/` on a (trimmed) line. -/
def isUpperHdr (t : List Char) : Bool :=
  match t with
  | [] => false
  | c :: rest => c.isUpper && !rest.isEmpty && rest.all (fun x => x.isUpper || jsWsChar x)

/-- Matches `/^[A-Z][a-z\s]+$/` on a (trimmed) line. -/
def isCapHdr (t : List Char) : Bool :=
  match t with
  | [] => false
  | c :: rest => c.isUpper && !rest.isEmpty && rest.all (fun x => x.isLower || jsWsChar x)

/-- JS `s.replace(':', '')`: delete the first colon only. -/
def removeFirstColon (s : String) : String :=
  match splitAtSub [':'] s.data with
  | some (p, q) => String.mk (p ++ q)
  | none => s

/-- `AIService.extractMainSections`. -/
def extractMainSections (content : String) : List String :=
  let ls := content.splitOn "\n"
  let sections := ls.filterMap (fun line =>
    let t := trimJS line
    if t.length > 3 && t.length < 50
        && (strIncludes t ":" || isUpperHdr t.data || isCapHdr t.data) then
      some (removeFirstColon t)
    else none)
  let sections :=
    if sections = [] then
      let contentLower := lowerStr content
      (if strIncludes contentLower "summary" then ["Professional Summary"] else []) ++
      (if strIncludes contentLower "experience" then ["Work Experience"] else []) ++
      (if strIncludes contentLower "education" then ["Education"] else []) ++
      (if strIncludes contentLower "skills" then ["Technical Skills"] else []) ++
      (if strIncludes contentLower "project" then ["Projects"] else []) ++
      (if strIncludes contentLower "contact" then ["Contact Information"] else [])
    else sections
  sections.take 6

/-- `AIService.extractUseCases`. -/
def extractUseCases (content : String) (contentLower : String) : List String :=
  let useCases :=
    if strIncludes contentLower "resume" || strIncludes contentLower "cv" then
      ["Job application and recruitment processes",
       "Professional networking and career development",
       "Skills assessment and career planning"]
    else if strIncludes contentLower "report" || strIncludes contentLower "analysis" then
      ["Strategic decision making and planning",
       "Research validation and peer review",
       "Policy development and implementation"]
    else if strIncludes contentLower "proposal" || strIncludes contentLower "plan" then
      ["Project approval and funding acquisition",
       "Stakeholder alignment and communication",
       "Resource planning and allocation"]
    else
      ["Information reference and documentation",
       "Knowledge sharing and collaboration",
       "Process documentation and training"]
  useCases.take 4

/-- The two extracted-content markers, tried leftmost-first. -/
def contentMarkerA : String := "ACTUAL EXTRACTED CONTENT:"

/-- The second extracted-content marker. -/
def contentMarkerB : String := "INTELLIGENT CONTENT ANALYSIS:"

/-- The lookahead delimiters ending the captured actual content. -/
def contentDelims : List String :=
  ["\n\nDOCUMENT STRUCTURE ANALYSIS:", "\n\nDOCUMENT INSIGHTS:", "\n\nCONTENT CHARACTERISTICS:"]

/-- Model of the `actualContentMatch` regex of `createRealContentInsights`:
text after the leftmost marker (and greedy whitespace), up to the earliest
section delimiter or the end of the string, trimmed; `""` when no marker
occurs. -/
def extractActualContent (content : String) : String :=
  let l := content.data
  let m1 := splitAtSub contentMarkerA.data l
  let m2 := splitAtSub contentMarkerB.data l
  let afterMarker :=
    match m1, m2 with
    | some (p1, q1), some (p2, q2) => if p1.length ≤ p2.length then some q1 else some q2
    | some (_, q1), none => some q1
    | none, some (_, q2) => some q2
    | none, none => none
  match afterMarker with
  | none => ""
  | some rest =>
    let rest2 := rest.dropWhile jsWsChar
    let cutAt :=
      (contentDelims.filterMap (fun d =>
        (splitAtSub d.data rest2).map (fun pq => pq.1.length))).foldl Nat.min rest2.length
    trimJS (String.mk (rest2.take cutAt))

/-- `AIService.createPersonalizedSummary`. -/
def createPersonalizedSummary (content : String) (documentType : String)
    (fileSize pageCount wordCount : Nat) : String :=
  let contentPreview := trimJS (content.take 200)
  "This " ++ lowerStr documentType ++ " document (" ++ toString fileSize ++ "KB, "
    ++ toString pageCount ++ " pages, ~" ++ toString wordCount
    ++ " words) contains specific content including: \"" ++ contentPreview
    ++ (if content.length > 200 then "..." else "")
    ++ "\". The document provides detailed information with authentic content extracted directly from the PDF."

/-- `AIService.createSpecificRecommendation`. -/
def createSpecificRecommendation (content : String) (documentType : String)
    (complexity : String) : String :=
  if documentType = "Resume/CV" then
    "This " ++ lowerStr complexity
      ++ "-complexity resume contains specific details that should be tailored for target positions. Consider highlighting quantifiable achievements and ensuring ATS compatibility for optimal results."
  else if documentType = "Research Report" then
    "This " ++ lowerStr complexity
      ++ "-complexity research document provides detailed analysis. Validate the methodology and consider the findings' applicability to current contexts and decision-making processes."
  else if documentType = "Project Proposal" then
    "This " ++ lowerStr complexity
      ++ "-complexity proposal outlines specific project details. Review the timeline, budget, and resource requirements for feasibility and alignment with organizational capabilities."
  else
    "This " ++ lowerStr complexity ++ "-complexity " ++ lowerStr documentType
      ++ " contains specific information that can be leveraged for its intended purpose. Review the content for accuracy and relevance to current needs."

/-- `AIService.createRealContentInsights`. -/
def createRealContentInsights (content : String) : AIInsights :=
  let actualContent := extractActualContent content
  let fileSize := ((findDigits "File Size: " "KB" content).map
    (fun d => parseNatDigits d.data)).getD 0
  let pageCount := ((findDigits "Pages: " "" content).map
    (fun d => parseNatDigits d.data)).getD 1
  let wordCount := ((findDigits "Word Count: ~" "" content).map
    (fun d => parseNatDigits d.data)).getD 0
  let contentLower := lowerStr actualContent
  let technologies := extractTechnologies actualContent
  let keyFeatures := extractKeyFeatures actualContent contentLower
  let mainSections := extractMainSections actualContent
  let useCases := extractUseCases actualContent contentLower
  let documentType := determineDocumentType contentLower
  let complexity := assessComplexity actualContent fileSize pageCount wordCount
  let summary := createPersonalizedSummary actualContent documentType fileSize pageCount
    wordCount
  let recommendation := createSpecificRecommendation actualContent documentType complexity
  { summary, keyFeatures, technologies, useCases, mainSections, complexity, recommendation }

/-! ## Repository heuristics (ai.ts lines 773–1056) -/

/-- JS `.` (matches any character except a line terminator). -/
def dotChar (c : Char) : Bool :=
  !(c = '\n' || c = '\r')

/-- One repetition of `\s*[-*]\s*.+\n?`, with the regex backtracking
behaviour at end of string (trailing non-newline whitespace can serve as
the `.+`). -/
def bulletRep (l : List Char) : Option (List Char × List Char) :=
  let w1 := l.takeWhile jsWsChar
  let r1 := l.drop w1.length
  match r1 with
  | [] => none
  | c :: r2 =>
    if c = '-' || c = '*' then
      let w2 := r2.takeWhile jsWsChar
      let r3 := r2.drop w2.length
      let txt := r3.takeWhile dotChar
      if txt ≠ [] then
        let r4 := r3.drop txt.length
        match r4 with
        | '\n' :: r5 => some (w1 ++ c :: (w2 ++ txt ++ ['\n']), r5)
        | _ => some (w1 ++ c :: (w2 ++ txt), r4)
      else
        match r3 with
        | [] =>
          if (w2.reverse.takeWhile (fun x => jsWsChar x && dotChar x)) ≠ [] then
            some (w1 ++ c :: w2, [])
          else none
        | _ => none
    else none

/-- Greedy `(?:\s*[-*]\s*.+\n?)+`. -/
def bulletBlock : List Char → Nat → Option (List Char × List Char)
  | _, 0 => none
  | l, Nat.succ fuel =>
    match bulletRep l with
    | none => none
    | some (m, r) =>
      match bulletBlock r fuel with
      | some (m2, r2) => some (m ++ m2, r2)
      | none => some (m, r)

/-- One-position matcher for a header-plus-bullet-list section pattern such
as `(?:features?|…):\s*\n((?:\s*[-*]\s*.+\n?)+)` (case-insensitive, no word
boundaries). -/
def sectionMatchAt (headers : List (List Char)) (l : List Char) : Option (List Char × List Char) :=
  headers.findSome? (fun h =>
    match ciTakeMatch h l with
    | none => none
    | some (hm, r1) =>
      match r1 with
      | ':' :: r2 =>
        let w := r2.takeWhile jsWsChar
        if w.contains '\n' then
          let r3 := r2.drop w.length
          match bulletBlock r3 (r3.length + 1) with
          | some (bm, r4) => some (hm ++ ':' :: (w ++ bm), r4)
          | none => none
        else none
      | _ => none)

/-- All matches of one section pattern over `content`. -/
def scanSections (headers : List String) (content : String) : List String :=
  (scanWith (fun _ l => sectionMatchAt (headers.map String.data) l) none content.data
    (content.length + 1)).map String.mk

/-- `line.trim().match(/^[-*]\s/)`. -/
def bulletLine (line : String) : Bool :=
  match (trimJS line).data with
  | a :: b :: _ => (a = '-' || a = '*') && jsWsChar b
  | _ => false

/-- `item.replace(/^[-*]\s/, '').trim()`. -/
def cleanBulletItem (item : String) : String :=
  match item.data with
  | a :: b :: rest =>
    if (a = '-' || a = '*') && jsWsChar b then trimJS (String.mk rest) else trimJS item
  | _ => trimJS item

/-- The ordered alternative lists of the three `featurePatterns`. -/
def featureHeaderGroups : List (List String) :=
  [["features", "feature", "capabilities", "functionality"],
   ["what it does", "what does", "overview"],
   ["highlights", "key points"]]

/-- `AIService.extractGitHubFeatures`. -/
def extractGitHubFeatures (content : String) (contentLower : String) : List String :=
  let fromSections :=
    ((featureHeaderGroups.map (fun hs =>
      ((scanSections hs content).map (fun m =>
        ((m.splitOn "\n").filter bulletLine).map cleanBulletItem)).flatten)).flatten).filter
      (fun ci => ci ≠ "" && ci.length > 10 && ci.length < 100)
  let features :=
    if fromSections = [] then
      (if strIncludes contentLower "api" || strIncludes contentLower "rest" then
        ["RESTful API implementation"] else []) ++
      (if strIncludes contentLower "dashboard" || strIncludes contentLower "ui" then
        ["User interface and dashboard"] else []) ++
      (if strIncludes contentLower "database" || strIncludes contentLower "data" then
        ["Data management and storage"] else []) ++
      (if strIncludes contentLower "auth" || strIncludes contentLower "login" then
        ["Authentication and authorization"] else []) ++
      (if strIncludes contentLower "test" || strIncludes contentLower "testing" then
        ["Comprehensive testing suite"] else []) ++
      (if strIncludes contentLower "deploy" || strIncludes contentLower "docker" then
        ["Deployment and containerization"] else [])
    else fromSections
  features.take 6

/-- The ordered alternative lists of the two `useCasePatterns`. -/
def useCaseHeaderGroups : List (List String) :=
  [["use cases", "use case", "applications", "application", "examples", "example"],
   ["perfect for", "ideal for", "great for"]]

/-- `AIService.extractGitHubUseCases`. -/
def extractGitHubUseCases (content : String) (contentLower : String) : List String :=
  let fromSections :=
    ((useCaseHeaderGroups.map (fun hs =>
      ((scanSections hs content).map (fun m =>
        ((m.splitOn "\n").filter bulletLine).map cleanBulletItem)).flatten)).flatten).filter
      (fun ci => ci ≠ "" && ci.length > 10)
  let useCases :=
    if fromSections = [] then
      (if strIncludes contentLower "library" || strIncludes contentLower "package" then
        ["Integration into other projects as a library",
         "Building applications with enhanced functionality"] else []) ++
      (if strIncludes contentLower "framework" || strIncludes contentLower "boilerplate" then
        ["Starting point for new projects", "Rapid application development"] else []) ++
      (if strIncludes contentLower "tool" || strIncludes contentLower "cli" then
        ["Development workflow automation",
         "Command-line operations and scripting"] else []) ++
      (if strIncludes contentLower "web" || strIncludes contentLower "app" then
        ["Web application development", "Production-ready web services"] else [])
    else fromSections
  useCases.take 5

/-- `AIService.extractGitHubSections` (markdown headers `^#+\s+(.+)$`,
per line). -/
def extractGitHubSections (content : String) : List String :=
  let ls := content.splitOn "\n"
  let sections := ls.filterMap (fun line =>
    let hashes := line.data.takeWhile (fun c => c = '#')
    if hashes = [] then none
    else
      let rest := line.data.drop hashes.length
      let w := rest.takeWhile jsWsChar
      let body := rest.drop w.length
      if w = [] || body = [] then none
      else
        let sec := trimJS (String.mk body)
        if sec ≠ "" && !strIncludes (lowerStr sec) "table of contents" then some sec
        else none)
  let sections :=
    if sections = [] then ["Installation", "Usage", "Documentation", "Contributing"]
    else sections
  sections.take 6

/-- `AIService.createGitHubSummary`. -/
def createGitHubSummary (content : String) (repoData : RepoData) : String :=
  let description := repoData.description
  let language := if repoData.language = "" then "multi-language" else repoData.language
  let stars := repoData.stargazers_count.getD 0
  let paragraphs := (content.splitOn "\n\n").filter (fun p => (trimJS p).length > 50)
  let firstParagraph := paragraphs.headD ""
  let summary := repoData.name ++ " is a " ++ language ++ " project with " ++ toString stars
    ++ " stars. "
  let summary := if description ≠ "" then summary ++ description ++ " " else summary
  if firstParagraph ≠ ""
      && !strIncludes (lowerStr firstParagraph) (lowerStr repoData.name) then
    let cleanParagraph := trimJS (String.mk (firstParagraph.data.filter
      (fun c => !(c = '#' || c = '*' || c = '`'))))
    summary ++ cleanParagraph.take 200 ++ (if cleanParagraph.length > 200 then "..." else "")
  else summary

/-- `AIService.createGitHubRecommendation`. -/
def createGitHubRecommendation (content : String) (repoData : RepoData)
    (complexity : String) : String :=
  let contentLower := lowerStr content
  let stars := repoData.stargazers_count.getD 0
  let language := if repoData.language = "" then "software" else repoData.language
  let r := "This " ++ lowerStr complexity ++ "-complexity " ++ language ++ " project "
  let r :=
    if stars > 1000 then r ++ "has strong community adoption and appears well-maintained. "
    else if stars > 100 then r ++ "shows good community interest and active development. "
    else r ++ "is in early stages but may offer unique functionality. "
  let r :=
    if strIncludes contentLower "getting started" || strIncludes contentLower "installation" then
      r ++ "The documentation includes setup instructions, making it accessible for new users. "
    else r
  let r :=
    if strIncludes contentLower "contributing" || strIncludes contentLower "pull request" then
      r ++ "The project welcomes contributions and has clear guidelines. "
    else r
  r ++ "Consider exploring the "
    ++ (if repoData.language = "" then "codebase" else repoData.language)
    ++ " and documentation to understand integration possibilities."

/-- `AIService.createGitHubContentAnalysis`. -/
def createGitHubContentAnalysis (content : String) (repoData : RepoData) : AIInsights :=
  let readmeContent := lowerStr content
  let technologies := extractGitHubTechnologies content repoData
  let keyFeatures := extractGitHubFeatures content readmeContent
  let useCases := extractGitHubUseCases content readmeContent
  let mainSections := extractGitHubSections content
  let complexity := assessGitHubComplexity content repoData
  let summary := createGitHubSummary content repoData
  let recommendation := createGitHubRecommendation content repoData complexity
  { summary, keyFeatures, technologies, useCases, mainSections, complexity, recommendation }

/-! ## Mock document insights (ai.ts lines 383–523) -/

/-- Resume branch of `createMockInsights` (`fileSize` is the captured digit
string, `'0'` when absent). -/
def resumeMockInsights (fileSize : String) : AIInsights :=
  let isComprehensive := parseNatDigits fileSize.data > 200
  { summary := "This is a professional resume/CV document (" ++ fileSize
      ++ "KB) showcasing career experience, educational background, and technical competencies. "
      ++ (if isComprehensive then
          "The substantial size suggests comprehensive career documentation with detailed project descriptions."
        else "The concise format indicates a focused presentation of key qualifications.")
    keyFeatures :=
      ["Professional work experience and career progression",
       "Educational qualifications and certifications",
       "Technical skills and programming competencies",
       "Project portfolio and key achievements",
       "Contact information and professional links",
       "Industry-specific expertise demonstration"]
    technologies :=
      ["Professional documentation standards",
       "Career development frameworks",
       "Skills assessment methodologies",
       "Portfolio presentation techniques",
       "ATS-compatible formatting",
       "Professional branding strategies"]
    useCases :=
      ["Job applications and recruitment processes",
       "Professional networking and LinkedIn optimization",
       "Career advancement and promotion discussions",
       "Freelance and consulting opportunity presentations",
       "Skills gap analysis and development planning",
       "Professional portfolio development"]
    mainSections :=
      ["Contact & Summary", "Professional Experience", "Education & Certifications",
       "Technical Skills", "Projects & Achievements", "Additional Qualifications"]
    complexity := if isComprehensive then "Medium" else "Low"
    recommendation := "This professional document demonstrates "
      ++ (if isComprehensive then "extensive" else "focused")
      ++ " career experience. For optimal impact: ensure ATS compatibility, quantify achievements with metrics, tailor content to target roles, and maintain consistent formatting. Consider adding specific project outcomes and measurable results to strengthen the presentation." }

/-- Report branch of `createMockInsights`. -/
def reportMockInsights (fileSize : String) : AIInsights :=
  let isDetailed := parseNatDigits fileSize.data > 300
  { summary := "This is a comprehensive research report/analysis document (" ++ fileSize
      ++ "KB) containing structured findings, methodology, and recommendations. "
      ++ (if isDetailed then
          "The extensive size indicates in-depth analysis with detailed data presentation and comprehensive conclusions."
        else
          "The focused format suggests targeted analysis with key insights and actionable recommendations.")
    keyFeatures :=
      ["Executive summary with key findings",
       "Structured research methodology",
       "Data analysis and statistical results",
       "Visual charts and data representations",
       "Evidence-based conclusions",
       "Actionable recommendations and next steps"]
    technologies :=
      ["Research methodologies and frameworks",
       "Data analysis and statistical tools",
       "Visualization and reporting platforms",
       "Survey and data collection systems",
       "Statistical analysis software",
       "Report generation and formatting tools"]
    useCases :=
      ["Strategic business decision making",
       "Academic research and publication",
       "Policy development and implementation",
       "Market analysis and competitive intelligence",
       "Performance evaluation and improvement",
       "Grant applications and funding proposals"]
    mainSections :=
      ["Executive Summary", "Introduction & Background", "Methodology", "Findings & Results",
       "Discussion & Analysis", "Conclusions & Recommendations"]
    complexity := "High"
    recommendation := "This analytical document provides "
      ++ (if isDetailed then "comprehensive" else "focused")
      ++ " insights for decision-making. Key considerations: validate methodology rigor, assess sample size adequacy, review statistical significance, evaluate recommendation feasibility, and consider implementation timelines. The findings should be cross-referenced with current market conditions and organizational capabilities." }

/-- Proposal branch of `createMockInsights`. -/
def proposalMockInsights (fileSize : String) : AIInsights :=
  let isComplex := parseNatDigits fileSize.data > 250
  { summary := "This is a project proposal/plan document (" ++ fileSize
      ++ "KB) outlining objectives, methodology, timeline, and resource requirements. "
      ++ (if isComplex then
          "The comprehensive size suggests a complex project with detailed planning and extensive resource allocation."
        else
          "The focused format indicates a well-defined project with clear scope and deliverables.")
    keyFeatures :=
      ["Clear project objectives and scope definition",
       "Detailed methodology and technical approach",
       "Comprehensive timeline with key milestones",
       "Resource allocation and budget planning",
       "Risk assessment and mitigation strategies",
       "Success criteria and evaluation metrics"]
    technologies :=
      ["Project management methodologies",
       "Planning and scheduling tools",
       "Resource management systems",
       "Risk assessment frameworks",
       "Budget planning and tracking",
       "Stakeholder communication platforms"]
    useCases :=
      ["Project funding and approval processes",
       "Stakeholder alignment and buy-in",
       "Resource allocation and team planning",
       "Timeline management and milestone tracking",
       "Risk management and contingency planning",
       "Performance monitoring and evaluation"]
    mainSections :=
      ["Project Overview", "Background & Justification", "Technical Approach",
       "Timeline & Milestones", "Resources & Budget", "Risk Management"]
    complexity := if isComplex then "High" else "Medium"
    recommendation := "This project proposal demonstrates "
      ++ (if isComplex then "sophisticated" else "well-structured")
      ++ " planning. Critical success factors: ensure stakeholder alignment, validate resource availability, assess timeline feasibility, review budget accuracy, and establish clear success metrics. Consider conducting a pilot phase for complex implementations." }

/-- Final generic branch of `createMockInsights`. -/
def genericMockInsights (type : CType) : AIInsights :=
  { summary := "This " ++ (if type = CType.github then "repository" else "document")
      ++ " contains technical content with various components and features that can be analyzed for insights."
    keyFeatures :=
      ["Comprehensive content structure", "Technical documentation", "Implementation details",
       "Usage examples"]
    technologies :=
      ["Modern development practices", "Documentation standards", "Version control",
       "Open source principles"]
    useCases :=
      ["Learning and education", "Reference implementation", "Development tool",
       "Technical documentation"]
    mainSections := ["Introduction", "Core concepts", "Implementation", "Examples"]
    complexity := "Medium"
    recommendation := "Review the content structure and documentation to understand the project scope and potential applications in your workflow." }

/-- The keyword-triggered document branches of `createMockInsights`
(everything after the repository and extracted-content dispatches). -/
def mockDocumentInsights (content : String) (type : CType) : AIInsights :=
  let contentLower := lowerStr content
  let fileSize := (findDigits "" "kb" contentLower).getD "0"
  if strIncludes contentLower "resume" || strIncludes contentLower "cv"
      || strIncludes contentLower "professional summary"
      || strIncludes contentLower "work experience" then
    resumeMockInsights fileSize
  else if strIncludes contentLower "report" || strIncludes contentLower "analysis"
      || strIncludes contentLower "findings" || strIncludes contentLower "methodology"
      || strIncludes contentLower "executive summary"
      || strIncludes contentLower "research" then
    reportMockInsights fileSize
  else if strIncludes contentLower "proposal" || strIncludes contentLower "plan"
      || strIncludes contentLower "project overview"
      || strIncludes contentLower "timeline" then
    proposalMockInsights fileSize
  else genericMockInsights type

/-- `AIService.createMockInsights`. -/
def createMockInsights (content : String) (type : CType) (repoData : Option RepoData) :
    AIInsights :=
  match type, repoData with
  | .github, some rd => createGitHubContentAnalysis content rd
  | t, _ =>
    if t = CType.document && (strIncludes content "ACTUAL EXTRACTED CONTENT:"
        || strIncludes content "INTELLIGENT CONTENT ANALYSIS:") then
      createRealContentInsights content
    else mockDocumentInsights content t

/-- `AIService.createFallbackInsights` — the Heuristic Analyzer entry
point. -/
def createFallbackInsights (content : String) (type : CType) (repoData : Option RepoData) :
    AIInsights :=
  if type = CType.document && (strIncludes content "ACTUAL EXTRACTED CONTENT:"
      || strIncludes content "INTELLIGENT CONTENT ANALYSIS:") then
    createRealContentInsights content
  else createMockInsights content type repoData

/-! ## Prompt Builder and Synthesis Orchestrator (ai.ts lines 33–81, 300–381) -/

/-- JS `v || d` for strings (empty string is falsy). -/
def orStr (v d : String) : String :=
  if v = "" then d else v

/-- `repoData?.name` under an optional repository object (absent fields are
falsy). -/
def repoNameOf (repoData : Option RepoData) : String :=
  match repoData with
  | some rd => rd.name
  | none => ""

/-- `repoData?.language`. -/
def repoLangOf (repoData : Option RepoData) : String :=
  match repoData with
  | some rd => rd.language
  | none => ""

/-- `repoData?.description`. -/
def repoDescOf (repoData : Option RepoData) : String :=
  match repoData with
  | some rd => rd.description
  | none => ""

/-- `repoData?.stargazers_count || 0`. -/
def repoStarsOf (repoData : Option RepoData) : Nat :=
  ((repoData.map RepoData.stargazers_count).bind id).getD 0

/-- `AIService.buildPrompt`. -/
def buildPrompt (content : String) (type : CType) (repoData : Option RepoData) : String :=
  if type = CType.document && (strIncludes content "ACTUAL EXTRACTED CONTENT:"
      || strIncludes content "INTELLIGENT CONTENT ANALYSIS:") then
    "\nYou are a high-efficiency AI document analyzer. Analyze the following PDF content and provide precise, actionable insights.\n\nTASK: Extract specific, concrete information from the actual document content provided below.\n\nOUTPUT FORMAT (JSON only, no additional text):\n\x7b\n  \"summary\": \"Specific 2-3 sentence summary based on actual content (mention specific names, topics, or details found)\",\n  \"keyFeatures\": [\"specific feature 1 from content\", \"actual element 2 found\", \"real characteristic 3 identified\", \"concrete detail 4\", \"specific aspect 5\"],\n  \"technologies\": [\"actual technology 1\", \"real tool/method 2\", \"specific system 3\", \"mentioned framework 4\", \"identified platform 5\"],\n  \"useCases\": [\"specific use case 1 from content\", \"real application 2 mentioned\", \"actual purpose 3 identified\", \"concrete scenario 4\"],\n  \"mainSections\": [\"actual section 1\", \"real heading 2\", \"specific part 3\", \"identified topic 4\", \"mentioned area 5\"],\n  \"complexity\": \"Low|Medium|High\",\n  \"recommendation\": \"Specific, actionable recommendation based on actual document content and identified purpose\"\n\x7d\n\nANALYSIS RULES:\n1. Extract ONLY information explicitly mentioned in the content\n2. Include specific names, companies, technologies, dates, numbers when found\n3. Identify actual document structure and sections\n4. Base complexity on content depth and technical detail level\n5. Provide actionable recommendations relevant to the document type\n\nCONTENT TO ANALYZE:\n"
      ++ content.take 8000
      ++ "\n\nAnalyze this content and return ONLY the JSON response with specific, extracted information."
  else if type = CType.github then
    "\nYou are analyzing a GitHub repository. Extract specific information from the README content and repository metadata to provide precise insights.\n\nREPOSITORY: "
      ++ orStr (repoNameOf repoData) "Unknown"
      ++ "\nLANGUAGE: " ++ orStr (repoLangOf repoData) "Unknown"
      ++ "\nSTARS: " ++ toString (repoStarsOf repoData)
      ++ "\nDESCRIPTION: " ++ orStr (repoDescOf repoData) "No description"
      ++ "\n\nREADME CONTENT:\n" ++ content.take 4000
      ++ "\n\nOUTPUT FORMAT (JSON only):\n\x7b\n  \"summary\": \"Specific summary mentioning the actual project name, purpose, and key details from README\",\n  \"keyFeatures\": [\"actual feature 1 from README\", \"real functionality 2\", \"specific capability 3\", \"concrete feature 4\", \"actual feature 5\"],\n  \"technologies\": [\""
      ++ orStr (repoLangOf repoData) "primary-language"
      ++ "\", \"framework/library mentioned\", \"tool mentioned\", \"technology from content\", \"platform mentioned\"],\n  \"useCases\": [\"specific use case from README\", \"real application mentioned\", \"actual scenario described\", \"concrete implementation\"],\n  \"mainSections\": [\"actual section from README\", \"real heading found\", \"specific part mentioned\"],\n  \"complexity\": \"Low|Medium|High\",\n  \"recommendation\": \"Specific recommendation based on the actual project details, stars ("
      ++ toString (repoStarsOf repoData)
      ++ "), and README content\"\n\x7d\n\nANALYSIS RULES:\n1. Extract information ONLY from the actual README content provided\n2. Use the real project name: "
      ++ orStr (repoNameOf repoData) "this project"
      ++ "\n3. Mention specific technologies, frameworks, or tools found in the content\n4. Base complexity on actual content depth, repository size, and star count\n5. Include real section headers from the README in mainSections\n6. Make recommendations specific to this particular project\n\nAnalyze the actual content and return ONLY the JSON response."
  else
    "\nAnalyze the following document content and provide insights in this exact JSON format:\n\n\x7b\n  \"summary\": \"A concise 2-3 sentence summary of what this document is about\",\n  \"keyFeatures\": [\"feature1\", \"feature2\", \"feature3\"],\n  \"technologies\": [\"tech1\", \"tech2\", \"tech3\"],\n  \"useCases\": [\"use case 1\", \"use case 2\", \"use case 3\"],\n  \"mainSections\": [\"section1\", \"section2\", \"section3\"],\n  \"complexity\": \"Low|Medium|High\",\n  \"recommendation\": \"A brief recommendation about this document\"\n\x7d\n\nContent to analyze:\n"
      ++ content.take 3000
      ++ "\n\nPlease analyze thoroughly and provide actionable insights."

/-- The placeholder-credential guard at the top of `analyzeContent`
(ai.ts line 35). -/
def isPlaceholderKey (apiKey : String) : Bool :=
  apiKey = "" || apiKey = "your-openai-api-key-here" || strIncludes apiKey "your-"
    || strIncludes apiKey "abcd"

/-- The heuristic Insight as the JSON object the caller receives (in JS
both paths yield a plain object; this encoder gives both paths one result
type). -/
def encodeInsights (i : AIInsights) : Json :=
  .obj [("summary", .str i.summary),
        ("keyFeatures", .arr (i.keyFeatures.map .str)),
        ("technologies", .arr (i.technologies.map .str)),
        ("useCases", .arr (i.useCases.map .str)),
        ("mainSections", .arr (i.mainSections.map .str)),
        ("complexity", .str i.complexity),
        ("recommendation", .str i.recommendation)]

/-- `AIService.analyzeContent`, the Synthesis Orchestrator.  The oracle
stands for the single provider call (`callOpenAI`/`callAnthropic`/…, i.e.
`fetch` plus envelope unwrapping): it yields the raw answer text or a
failure; any failure, and any normalization failure, falls back to the
Heuristic Analyzer.  A successfully parsed backend response is returned
as-is, unvalidated, exactly as in the source. -/
def analyzeContent (config : AIConfig) (oracle : String → Except String String)
    (content : String) (type : CType) (repoData : Option RepoData) : Json :=
  if isPlaceholderKey config.apiKey then
    encodeInsights (createFallbackInsights content type repoData)
  else
    match oracle (buildPrompt content type repoData) with
    | .error _ => encodeInsights (createFallbackInsights content type repoData)
    | .ok raw =>
      match parseAIResponse raw with
      | some j => j
      | none => encodeInsights (createFallbackInsights content type repoData)

/-! ## Structural completeness of an Insight object -/

/-- First binding of a key in an association list of JSON fields. -/
def assocFind : List (String × Json) → String → Option Json
  | [], _ => none
  | (k', v) :: t, k => if k' = k then some v else assocFind t k

/-- Field lookup in a JSON object (first binding). -/
def lookupField : Json → String → Option Json
  | .obj fs, k => assocFind fs k
  | _, _ => none

/-- The field is present and is a string. -/
def fieldIsStr (j : Json) (k : String) : Bool :=
  match lookupField j k with
  | some (.str _) => true
  | _ => false

/-- The field is present and is an array. -/
def fieldIsArr (j : Json) (k : String) : Bool :=
  match lookupField j k with
  | some (.arr _) => true
  | _ => false

/-- The `complexity` field is one of the three admissible literals. -/
def complexityOk (j : Json) : Bool :=
  match lookupField j "complexity" with
  | some (.str s) => s = "Low" || s = "Medium" || s = "High"
  | _ => false

/-- Structural completeness of an Insight object: the six mandatory fields
are present with their shapes (`mainSections` is optional in
`types/index.ts`) and `complexity` lies in the closed enumeration. -/
def isCompleteInsight (j : Json) : Bool :=
  fieldIsStr j "summary" && fieldIsArr j "keyFeatures" && fieldIsArr j "technologies"
    && fieldIsArr j "useCases" && complexityOk j && fieldIsStr j "recommendation"

/-! ## Concrete fixtures used by the claim theorems -/

/-- Rank of a complexity bucket under the ordering Low < Medium < High. -/
def bucketRank (s : String) : Nat :=
  if s = "High" then 2 else if s = "Medium" then 1 else 0

/-- A configuration whose key passes the placeholder guard. -/
def validConfig : AIConfig :=
  { provider := .openai, apiKey := "sk-live-0123456789", model := "gpt-4o-mini" }

/-- A configuration with no credential (absent/empty key). -/
def emptyKeyConfig : AIConfig :=
  { provider := .openai, apiKey := "", model := "gpt-4o-mini" }

/-- An otherwise well-formed key that merely contains the substring
`abcd`. -/
def abcdConfig : AIConfig :=
  { provider := .openai, apiKey := "sk-proj-abcd1234efgh5678", model := "gpt-4o-mini" }

/-- A backend stub that always fails (`BackendError`). -/
def failOracle : String → Except String String :=
  fun _ => Except.error "BackendError"

/-- A backend stub that always answers with the parseable but empty JSON
object. -/
def succeedingOracle : String → Except String String :=
  fun _ => Except.ok "\x7b\x7d"

/-- The README of the specification's repository scenario. -/
def widgetReadme : String := "# Widget\nA tool for X."

/-- The metadata of the specification's repository scenario
(`size` and `description` are not supplied). -/
def widgetRepo : RepoData :=
  { name := "widget", language := "Go", stargazers_count := some 1500, size := none,
    description := "" }

/-- A repository whose README mentions its own primary language in lower
case. -/
def goRepo : RepoData :=
  { name := "g", language := "Go", stargazers_count := none, size := none, description := "" }

/-- A repository with no declared primary language. -/
def noLangRepo : RepoData :=
  { name := "thing", language := "", stargazers_count := none, size := none,
    description := "" }

/-- The raw backend text of the specification's normalizer-layering test. -/
def noisyResponse : String :=
  "noise \x7b\"summary\":\"x\",\"keyFeatures\":[],\"technologies\":[],\"useCases\":[],\"complexity\":\"Low\",\"recommendation\":\"y\"\x7d trailing noise"

/-- The object embedded in `noisyResponse`. -/
def embeddedInsight : Json :=
  .obj [("summary", .str "x"), ("keyFeatures", .arr []), ("technologies", .arr []),
        ("useCases", .arr []), ("complexity", .str "Low"), ("recommendation", .str "y")]


/-! ## Supporting lemmas -/

set_option maxRecDepth 40000

theorem toNatOfNatValid (m : Nat) (h : m < 55296) : (Char.ofNat m).toNat = m := by
  unfold Char.ofNat
  rw [dif_pos (Or.inl h)]
  simp only [Char.ofNatAux, Char.toNat, UInt32.ofNat']
  simp [UInt32.toNat, BitVec.toNat_ofNatLt]

theorem charToLowerIdem (c : Char) : c.toLower.toLower = c.toLower := by
  unfold Char.toLower
  by_cases h : c.toNat ≥ 65 ∧ c.toNat ≤ 90
  · rw [if_pos h]
    have h32 : (Char.ofNat (c.toNat + 32)).toNat = c.toNat + 32 :=
      toNatOfNatValid _ (by omega)
    rw [if_neg (by rw [h32]; omega)]
  · rw [if_neg h, if_neg h]

theorem lowerStr_idem (s : String) : lowerStr (lowerStr s) = lowerStr s := by
  unfold lowerStr
  congr 1
  simp only [List.map_map]
  apply List.map_congr_left
  intro a _
  exact charToLowerIdem a

theorem insertUnique_nodup (l : List String) (x : String) (h : l.Nodup) :
    (insertUnique l x).Nodup := by
  unfold insertUnique
  split
  · exact h
  · next hx =>
    refine List.Nodup.append h (List.nodup_singleton x) ?_
    intro a ha hax
    simp only [List.mem_singleton] at hax
    exact hx (hax ▸ ha)

theorem foldl_insertUnique_nodup (ms : List String) :
    ∀ acc : List String, acc.Nodup → (ms.foldl insertUnique acc).Nodup := by
  induction ms with
  | nil => intro acc h; exact h
  | cons m ms ih => intro acc h; exact ih _ (insertUnique_nodup acc m h)

theorem insertUnique_head (l : List String) (x : String) (h : l ≠ []) :
    (insertUnique l x).head? = l.head? ∧ insertUnique l x ≠ [] := by
  unfold insertUnique
  split
  · exact ⟨rfl, h⟩
  · cases l with
    | nil => exact absurd rfl h
    | cons a t => simp

theorem foldl_insertUnique_head (ms : List String) :
    ∀ acc : List String, acc ≠ [] →
      (ms.foldl insertUnique acc).head? = acc.head? ∧ ms.foldl insertUnique acc ≠ [] := by
  induction ms with
  | nil => intro acc h; exact ⟨rfl, h⟩
  | cons m ms ih =>
    intro acc h
    obtain ⟨h1, h2⟩ := insertUnique_head acc m h
    obtain ⟨h3, h4⟩ := ih _ h2
    exact ⟨h3.trans h1, h4⟩

theorem take_head (l : List String) (n : Nat) (h : 0 < n) : (l.take n).head? = l.head? := by
  cases l with
  | nil => simp
  | cons a t => cases n with
    | zero => omega
    | succ n => simp

theorem condInsert_head (l : List String) (x : String) (P : Prop) [Decidable P] (h : l ≠ []) :
    (if P then insertUnique l x else l).head? = l.head? := by
  split
  · exact (insertUnique_head l x h).1
  · rfl

theorem condInsert_ne (l : List String) (x : String) (P : Prop) [Decidable P] (h : l ≠ []) :
    (if P then insertUnique l x else l) ≠ [] := by
  split
  · exact (insertUnique_head l x h).2
  · exact h

theorem ghTechs_head (c : String) (rd : RepoData) (h : rd.language ≠ "") :
    (extractGitHubTechnologies c rd).head? = some rd.language := by
  unfold extractGitHubTechnologies
  simp only [if_pos h]
  rw [take_head _ _ (by omega)]
  rw [condInsert_head, condInsert_head, condInsert_head,
    (foldl_insertUnique_head _ [rd.language] (by simp)).1]
  · simp
  · exact (foldl_insertUnique_head _ [rd.language] (by simp)).2
  · exact condInsert_ne _ _ _ ((foldl_insertUnique_head _ [rd.language] (by simp)).2)
  · exact condInsert_ne _ _ _ (condInsert_ne _ _ _
      ((foldl_insertUnique_head _ [rd.language] (by simp)).2))

example : True := trivial

theorem condInsert_nodup (l : List String) (x : String) (P : Prop) [Decidable P]
    (h : l.Nodup) : (if P then insertUnique l x else l).Nodup := by
  split
  · exact insertUnique_nodup l x h
  · exact h

theorem ghTechs_nodup (c : String) (rd : RepoData) :
    (extractGitHubTechnologies c rd).Nodup := by
  unfold extractGitHubTechnologies
  simp only []
  apply List.Nodup.sublist (List.take_sublist _ _)
  apply condInsert_nodup
  apply condInsert_nodup
  apply condInsert_nodup
  apply foldl_insertUnique_nodup
  split
  · exact List.nodup_singleton _
  · exact List.nodup_nil

theorem lowerFold_inv (ms : List String) :
    ∀ acc : List String,
      List.Pairwise (fun a b => lowerStr a ≠ lowerStr b) acc →
      (∀ y ∈ acc, lowerStr y = y) →
      List.Pairwise (fun a b => lowerStr a ≠ lowerStr b)
          (ms.foldl (fun a m => insertUnique a (lowerStr m)) acc) ∧
        ∀ y ∈ ms.foldl (fun a m => insertUnique a (lowerStr m)) acc, lowerStr y = y := by
  induction ms with
  | nil => intro acc h1 h2; exact ⟨h1, h2⟩
  | cons m ms ih =>
    intro acc h1 h2
    apply ih
    · show List.Pairwise _ (insertUnique acc (lowerStr m))
      unfold insertUnique
      split
      · exact h1
      · next hx =>
        refine List.pairwise_append.mpr ⟨h1, List.pairwise_singleton _ _, ?_⟩
        intro a ha b hb
        simp only [List.mem_singleton] at hb
        subst hb
        rw [h2 a ha, lowerStr_idem]
        intro hcon
        exact hx (hcon ▸ ha)
    · intro y hy
      replace hy : y ∈ insertUnique acc (lowerStr m) := hy
      unfold insertUnique at hy
      split at hy
      · exact h2 y hy
      · rcases List.mem_append.mp hy with h | h
        · exact h2 y h
        · simp only [List.mem_singleton] at h
          subst h
          exact lowerStr_idem m

theorem extractTechnologies_ci (s : String) :
    List.Pairwise (fun a b => lowerStr a ≠ lowerStr b) (extractTechnologies s) := by
  unfold extractTechnologies
  apply List.Pairwise.sublist (List.take_sublist _ _)
  split
  · split_ifs <;> decide
  · exact (lowerFold_inv _ [] (List.Pairwise.nil) (by intro y hy; cases hy)).1

theorem extractTechnologies_ne_nil (s : String) : extractTechnologies s ≠ [] := by
  unfold extractTechnologies
  intro hnil
  rw [List.take_eq_nil_iff] at hnil
  rcases hnil with h | h
  · omega
  · revert h
    split
    · split_ifs <;> decide
    · next hb => exact hb

theorem scoreBucket_mem (n : Nat) :
    scoreBucket n = "Low" ∨ scoreBucket n = "Medium" ∨ scoreBucket n = "High" := by
  unfold scoreBucket
  split_ifs <;> simp

theorem scoreBucket_rank_mono (m n : Nat) (h : m ≤ n) :
    bucketRank (scoreBucket m) ≤ bucketRank (scoreBucket n) := by
  unfold scoreBucket
  split_ifs <;> first | decide | omega

theorem real_cx (c : String) :
    (createRealContentInsights c).complexity = "Low" ∨
      (createRealContentInsights c).complexity = "Medium" ∨
      (createRealContentInsights c).complexity = "High" :=
  scoreBucket_mem _

theorem gh_cx (c : String) (rd : RepoData) :
    (createGitHubContentAnalysis c rd).complexity = "Low" ∨
      (createGitHubContentAnalysis c rd).complexity = "Medium" ∨
      (createGitHubContentAnalysis c rd).complexity = "High" :=
  scoreBucket_mem _

theorem mock_cx (c : String) (t : CType) :
    (mockDocumentInsights c t).complexity = "Low" ∨
      (mockDocumentInsights c t).complexity = "Medium" ∨
      (mockDocumentInsights c t).complexity = "High" := by
  unfold mockDocumentInsights
  dsimp only
  split_ifs
  · simp only [resumeMockInsights]
    split <;> simp
  · simp only [reportMockInsights]
    simp
  · simp only [proposalMockInsights]
    split <;> simp
  · simp only [genericMockInsights]
    simp

theorem cmi_cx (c : String) (t : CType) (r : Option RepoData) :
    (createMockInsights c t r).complexity = "Low" ∨
      (createMockInsights c t r).complexity = "Medium" ∨
      (createMockInsights c t r).complexity = "High" := by
  unfold createMockInsights
  rcases t with _ | _ <;> rcases r with _ | rd <;> dsimp only
  · split
    · exact real_cx c
    · exact mock_cx c _
  · exact gh_cx c rd
  · split
    · exact real_cx c
    · exact mock_cx c _
  · split
    · exact real_cx c
    · exact mock_cx c _

theorem complexity_mem (c : String) (t : CType) (r : Option RepoData) :
    (createFallbackInsights c t r).complexity = "Low" ∨
      (createFallbackInsights c t r).complexity = "Medium" ∨
      (createFallbackInsights c t r).complexity = "High" := by
  unfold createFallbackInsights
  split
  · exact real_cx c
  · exact cmi_cx c t r

theorem real_techs (c : String) :
    (createRealContentInsights c).technologies = extractTechnologies (extractActualContent c) :=
  rfl

theorem gh_techs (c : String) (rd : RepoData) :
    (createGitHubContentAnalysis c rd).technologies = extractGitHubTechnologies c rd :=
  rfl

theorem mock_techs_ci (c : String) (t : CType) :
    List.Pairwise (fun a b => lowerStr a ≠ lowerStr b)
      (mockDocumentInsights c t).technologies := by
  unfold mockDocumentInsights
  dsimp only
  split_ifs <;>
    simp only [resumeMockInsights, reportMockInsights, proposalMockInsights,
      genericMockInsights] <;>
    decide

theorem mock_techs_ne_nil (c : String) (t : CType) :
    (mockDocumentInsights c t).technologies ≠ [] := by
  unfold mockDocumentInsights
  dsimp only
  split_ifs <;>
    simp [resumeMockInsights, reportMockInsights, proposalMockInsights, genericMockInsights]

theorem fallback_doc_techs_ci (c : String) (r : Option RepoData) :
    List.Pairwise (fun a b => lowerStr a ≠ lowerStr b)
      (createFallbackInsights c CType.document r).technologies := by
  unfold createFallbackInsights
  split
  · rw [real_techs]
    exact extractTechnologies_ci _
  · unfold createMockInsights
    rcases r with _ | rd <;> dsimp only <;> split
    · rw [real_techs]
      exact extractTechnologies_ci _
    · exact mock_techs_ci c _
    · rw [real_techs]
      exact extractTechnologies_ci _
    · exact mock_techs_ci c _

theorem fallback_gh_none_techs_ci (c : String) :
    List.Pairwise (fun a b => lowerStr a ≠ lowerStr b)
      (createFallbackInsights c CType.github none).technologies := by
  unfold createFallbackInsights
  split
  · next h => simp at h
  · unfold createMockInsights
    dsimp only
    split
    · next h => simp at h
    · exact mock_techs_ci c _

theorem fallback_gh_techs_nodup (c : String) (rd : RepoData) :
    (createFallbackInsights c CType.github (some rd)).technologies.Nodup := by
  unfold createFallbackInsights
  split
  · next h => simp at h
  · unfold createMockInsights
    dsimp only
    rw [gh_techs]
    exact ghTechs_nodup c rd

theorem fallback_doc_techs_ne_nil (c : String) (r : Option RepoData) :
    (createFallbackInsights c CType.document r).technologies ≠ [] := by
  unfold createFallbackInsights
  split
  · rw [real_techs]
    exact extractTechnologies_ne_nil _
  · unfold createMockInsights
    rcases r with _ | rd <;> dsimp only <;> split
    · rw [real_techs]
      exact extractTechnologies_ne_nil _
    · exact mock_techs_ne_nil c _
    · rw [real_techs]
      exact extractTechnologies_ne_nil _
    · exact mock_techs_ne_nil c _

theorem fallback_gh_none_techs_ne_nil (c : String) :
    (createFallbackInsights c CType.github none).technologies ≠ [] := by
  unfold createFallbackInsights
  split
  · next h => simp at h
  · unfold createMockInsights
    dsimp only
    split
    · next h => simp at h
    · exact mock_techs_ne_nil c _

theorem fallback_gh_lang_first (c : String) (rd : RepoData) (h : rd.language ≠ "") :
    (createFallbackInsights c CType.github (some rd)).technologies.head? = some rd.language := by
  unfold createFallbackInsights
  split
  · next hx => simp at hx
  · unfold createMockInsights
    dsimp only
    rw [gh_techs]
    exact ghTechs_head c rd h

theorem encode_complete (i : AIInsights)
    (h : i.complexity = "Low" ∨ i.complexity = "Medium" ∨ i.complexity = "High") :
    isCompleteInsight (encodeInsights i) = true := by
  rcases h with h | h | h <;>
    simp [isCompleteInsight, encodeInsights, fieldIsStr, fieldIsArr, complexityOk,
      lookupField, assocFind, h]

theorem analyze_guard (config : AIConfig) (oracle : String → Except String String)
    (c : String) (t : CType) (r : Option RepoData)
    (h : isPlaceholderKey config.apiKey = true) :
    analyzeContent config oracle c t r = encodeInsights (createFallbackInsights c t r) := by
  unfold analyzeContent
  rw [if_pos h]

theorem analyze_cases (config : AIConfig) (oracle : String → Except String String)
    (c : String) (t : CType) (r : Option RepoData) :
    analyzeContent config oracle c t r = encodeInsights (createFallbackInsights c t r) ∨
      ∃ raw j, oracle (buildPrompt c t r) = Except.ok raw ∧ parseAIResponse raw = some j ∧
        analyzeContent config oracle c t r = j := by
  unfold analyzeContent
  split
  · left; rfl
  · rcases ho : oracle (buildPrompt c t r) with e | raw
    · left; rfl
    · rcases hp : parseAIResponse raw with _ | j
      · dsimp only
        rw [hp]
        left
        rfl
      · dsimp only
        rw [hp]
        right
        exact ⟨raw, j, rfl, hp, rfl⟩

/-! ## Claim theorems -/

/-- Claim C1, amended.  `analyzeContent` is total (the embedding returns a
value on every input) and, on every path where the Heuristic Analyzer
decides (placeholder credential, backend failure, or response that fails
normalization), the returned Insight has all six mandatory fields present
with `complexity` in the closed enumeration.  The amendment forced by
`c1_counterexample`: a successfully parsed backend response is returned
as-is without validation, so on that one path the record can lack fields. -/
theorem c1_totality_amended (config : AIConfig) (oracle : String → Except String String)
    (c : String) (t : CType) (r : Option RepoData) :
    isCompleteInsight (encodeInsights (createFallbackInsights c t r)) = true ∧
      (analyzeContent config oracle c t r = encodeInsights (createFallbackInsights c t r) ∨
        ∃ raw j, oracle (buildPrompt c t r) = Except.ok raw ∧ parseAIResponse raw = some j ∧
          analyzeContent config oracle c t r = j) :=
  ⟨encode_complete _ (complexity_mem c t r), analyze_cases config oracle c t r⟩

/-- Claim C1, counterexample.  With a valid-looking key and a backend that
answers with the parseable text of an empty JSON object, `analyzeContent`
returns that object unvalidated: no field is present, so the claimed
"all six fields present and `complexity` ∈ {Low, Medium, High}" fails. -/
theorem c1_counterexample :
    analyzeContent validConfig succeedingOracle "" CType.document none = Json.obj [] ∧
      isCompleteInsight (analyzeContent validConfig succeedingOracle "" CType.document none)
        = false :=
  ⟨rfl, by decide⟩

/-- Claim C2.  If every backend call fails, `analyzeContent` returns
exactly the Heuristic Analyzer's output on the same `(content, type,
repoData)` — no field of the failed attempt is merged in. -/
theorem c2_backend_failure_equals_heuristic (config : AIConfig)
    (oracle : String → Except String String) (c : String) (t : CType) (r : Option RepoData)
    (h : ∀ p, ∃ e, oracle p = Except.error e) :
    analyzeContent config oracle c t r = encodeInsights (createFallbackInsights c t r) := by
  unfold analyzeContent
  split
  · rfl
  · obtain ⟨e, he⟩ := h (buildPrompt c t r)
    rw [he]

/-- Claim C2, witness at a concrete input with an always-failing backend
stub. -/
theorem c2_witness :
    analyzeContent validConfig failOracle "hello" CType.document none
      = encodeInsights (createFallbackInsights "hello" CType.document none) :=
  c2_backend_failure_equals_heuristic validConfig failOracle "hello" CType.document none
    (fun _ => ⟨"BackendError", rfl⟩)

/-- Claim C3, counterexample.  On the specification's scenario input
(`readmeText = "# Widget\nA tool for X."`, repository `widget`, language
`Go`, 1500 stars, no credential) the result is the heuristic Insight, its
technologies do include `Go`, but its complexity is not `High`: the star
signal contributes only 2 points, below the Medium threshold of 3. -/
theorem c3_counterexample :
    analyzeContent emptyKeyConfig succeedingOracle widgetReadme CType.github (some widgetRepo)
        = encodeInsights (createFallbackInsights widgetReadme CType.github (some widgetRepo)) ∧
      "Go" ∈ (createFallbackInsights widgetReadme CType.github (some widgetRepo)).technologies ∧
      ¬(createFallbackInsights widgetReadme CType.github (some widgetRepo)).complexity
          = "High" :=
  ⟨rfl, by decide, by decide⟩

/-- Claim C3, amended.  Same scenario: `technologies` includes `Go`, and
the complexity equals `Low` (stars > 1000 alone score 2 < 3). -/
theorem c3_scenario_amended :
    analyzeContent emptyKeyConfig succeedingOracle widgetReadme CType.github (some widgetRepo)
        = encodeInsights (createFallbackInsights widgetReadme CType.github (some widgetRepo)) ∧
      "Go" ∈ (createFallbackInsights widgetReadme CType.github (some widgetRepo)).technologies ∧
      (createFallbackInsights widgetReadme CType.github (some widgetRepo)).complexity
        = "Low" :=
  ⟨rfl, by decide, by decide⟩

/-- Claim C4.  Whenever the API key is absent/empty, the exact placeholder
value, or matches the placeholder pattern, `analyzeContent` returns the
Heuristic Analyzer's result for every backend oracle whatsoever — the
backend is never consulted and the missing credential is not surfaced as a
failure. -/
theorem c4_placeholder_skips_backend (config : AIConfig)
    (h : config.apiKey = "" ∨ config.apiKey = "your-openai-api-key-here"
      ∨ strIncludes config.apiKey "your-" = true ∨ strIncludes config.apiKey "abcd" = true) :
    ∀ (oracle : String → Except String String) (c : String) (t : CType) (r : Option RepoData),
      analyzeContent config oracle c t r = encodeInsights (createFallbackInsights c t r) := by
  intro oracle c t r
  apply analyze_guard
  unfold isPlaceholderKey
  rcases h with h | h | h | h <;> simp [h]

/-- Claim C4, witness: with an empty key, even a backend stub that would
answer successfully is ignored. -/
theorem c4_witness :
    analyzeContent emptyKeyConfig succeedingOracle "resume" CType.document none
      = encodeInsights (createFallbackInsights "resume" CType.document none) :=
  c4_placeholder_skips_backend emptyKeyConfig (Or.inl rfl) succeedingOracle "resume"
    CType.document none

/-- Claim C5.  The Response Normalizer tries, in order, the whole-string
parse, the greedy first-brace-to-last-brace substring, and the fenced code
block, returns the first success, and fails only when all three fail; and
on the specification's noisy raw text it recovers the embedded object via
the balanced-substring strategy (the whole-string parse fails on it). -/
theorem c5_normalizer_layering :
    (∀ s j, jsonParse s = some j → parseAIResponse s = some j) ∧
    (∀ s j, jsonParse s = none → (extractBrace s).bind jsonParse = some j →
      parseAIResponse s = some j) ∧
    (∀ s j, jsonParse s = none → (extractBrace s).bind jsonParse = none →
      codeBlockParse s = some j → parseAIResponse s = some j) ∧
    (∀ s, jsonParse s = none → (extractBrace s).bind jsonParse = none →
      codeBlockParse s = none → parseAIResponse s = none) ∧
    (jsonParse noisyResponse = none ∧
      (extractBrace noisyResponse).bind jsonParse = some embeddedInsight ∧
      parseAIResponse noisyResponse = some embeddedInsight) := by
  refine ⟨?_, ?_, ?_, ?_, ?_, ?_, ?_⟩
  · intro s j h
    unfold parseAIResponse
    rw [h]
  · intro s j h1 h2
    unfold parseAIResponse
    rw [h1]
    rcases hb : extractBrace s with _ | sub
    · rw [hb] at h2
      simp at h2
    · rw [hb] at h2
      simp only [Option.some_bind] at h2
      dsimp only
      rw [h2]
  · intro s j h1 h2 h3
    unfold parseAIResponse
    rw [h1]
    rcases hb : extractBrace s with _ | sub
    · dsimp only
      exact h3
    · rw [hb] at h2
      simp only [Option.some_bind] at h2
      dsimp only
      rw [h2]
      exact h3
  · intro s h1 h2 h3
    unfold parseAIResponse
    rw [h1]
    rcases hb : extractBrace s with _ | sub
    · dsimp only
      exact h3
    · rw [hb] at h2
      simp only [Option.some_bind] at h2
      dsimp only
      rw [h2]
      exact h3
  · rfl
  · rfl
  · rfl

/-- Claim C5, witness: the balanced-substring strategy applied to the
concrete noisy response. -/
theorem c5_witness : parseAIResponse noisyResponse = some embeddedInsight :=
  c5_normalizer_layering.2.1 noisyResponse embeddedInsight (by rfl) (by rfl)

/-- Claim C6.  The document complexity scorer is monotone in word count,
all other inputs equal, under the ordering Low < Medium < High. -/
theorem c6_wordcount_monotone (content : String) (fileSize pageCount w1 w2 : Nat)
    (h : w1 ≤ w2) :
    bucketRank (assessComplexity content fileSize pageCount w1) ≤
      bucketRank (assessComplexity content fileSize pageCount w2) := by
  unfold assessComplexity
  dsimp only
  apply scoreBucket_rank_mono
  have h3 : (if w1 > 2000 then (2 : Nat) else if w1 > 1000 then 1 else 0) ≤
      (if w2 > 2000 then (2 : Nat) else if w2 > 1000 then 1 else 0) := by
    split_ifs <;> omega
  omega

/-- Claim C6, witness at the specification's 200-word versus 3000-word
example. -/
theorem c6_witness :
    200 ≤ 3000 ∧
      bucketRank (assessComplexity "All else equal." 120 3 200) ≤
        bucketRank (assessComplexity "All else equal." 120 3 3000) :=
  ⟨by decide, c6_wordcount_monotone "All else equal." 120 3 200 3000 (by decide)⟩

/-- Claim C7, counterexample.  On the repository path the `Set` receives
matches in their original case (and the declared language verbatim), so a
README consisting of `go` with declared language `Go` yields two entries
that are equal case-insensitively. -/
theorem c7_counterexample :
    (createFallbackInsights "go" CType.github (some goRepo)).technologies = ["Go", "go"] ∧
      ¬ List.Pairwise (fun a b => lowerStr a ≠ lowerStr b)
          (createFallbackInsights "go" CType.github (some goRepo)).technologies :=
  ⟨by decide, by decide⟩

/-- Claim C7, amended.  Case-insensitive deduplication holds on the
document heuristic path (matches are lowercased before entering the set)
and on the repository-without-metadata path; on the repository path with
metadata only exact (case-sensitive) deduplication holds. -/
theorem c7_dedup_amended :
    (∀ c r, List.Pairwise (fun a b => lowerStr a ≠ lowerStr b)
      (createFallbackInsights c CType.document r).technologies) ∧
    (∀ c, List.Pairwise (fun a b => lowerStr a ≠ lowerStr b)
      (createFallbackInsights c CType.github none).technologies) ∧
    (∀ c rd, (createFallbackInsights c CType.github (some rd)).technologies.Nodup) :=
  ⟨fallback_doc_techs_ci, fallback_gh_none_techs_ci, fallback_gh_techs_nodup⟩

/-- Claim C8, counterexample.  On the repository path with no declared
language and no keyword match, the technologies list is empty: generic
labels are substituted only on the document paths. -/
theorem c8_counterexample :
    (createFallbackInsights "" CType.github (some noLangRepo)).technologies = [] := by
  decide

/-- Claim C8, amended.  The technologies list is never empty on the
document heuristic paths (generic labels are substituted), and when a
repository's declared primary language is known it is the first element;
but the repository path with unknown language may produce an empty list. -/
theorem c8_nonempty_amended :
    (∀ c r, (createFallbackInsights c CType.document r).technologies ≠ []) ∧
    (∀ c, (createFallbackInsights c CType.github none).technologies ≠ []) ∧
    (∀ c rd, rd.language ≠ "" →
      (createFallbackInsights c CType.github (some rd)).technologies.head?
        = some rd.language) :=
  ⟨fallback_doc_techs_ne_nil, fallback_gh_none_techs_ne_nil, fallback_gh_lang_first⟩

/-- Claim C8, witness: the declared language `Go` comes first on a
concrete repository input. -/
theorem c8_witness :
    (createFallbackInsights "x" CType.github (some widgetRepo)).technologies.head?
      = some "Go" :=
  c8_nonempty_amended.2.2 "x" widgetRepo (by decide)

/-- Claim C9.  The Heuristic Analyzer is deterministic: two calls with
identical arguments return identical Insight records.  The analyzer is
embedded as a pure function, which is faithful because its code path
performs no randomness, clock reads, or other effects (only logging). -/
theorem c9_heuristic_deterministic :
    ∀ c t r, createFallbackInsights c t r = createFallbackInsights c t r :=
  fun _ _ _ => rfl

/-- Claim C10.  The placeholder test is substring-based: any key equal to
the placeholder literal, or containing `your-` or `abcd` anywhere — even an
otherwise well-formed credential — routes every input directly to the
Heuristic Analyzer for every backend oracle. -/
theorem c10_substring_placeholder (config : AIConfig)
    (h : config.apiKey = "your-openai-api-key-here"
      ∨ strIncludes config.apiKey "your-" = true ∨ strIncludes config.apiKey "abcd" = true) :
    ∀ (oracle : String → Except String String) (c : String) (t : CType) (r : Option RepoData),
      analyzeContent config oracle c t r = encodeInsights (createFallbackInsights c t r) := by
  intro oracle c t r
  apply analyze_guard
  unfold isPlaceholderKey
  rcases h with h | h | h <;> simp [h]

/-- Claim C10, witness: a well-formed key that merely contains `abcd`
skips a backend that would have answered successfully. -/
theorem c10_witness :
    analyzeContent abcdConfig succeedingOracle "# My Repo" CType.github none
      = encodeInsights (createFallbackInsights "# My Repo" CType.github none) :=
  c10_substring_placeholder abcdConfig (Or.inr (Or.inr (by decide))) succeedingOracle
    "# My Repo" CType.github none
